import Mathlib

/-!
Verification development for the Forest-Code repository.

The gesture classifier, the season debouncer, the wind-level quantizer and the
audio manager are embedded over `ℚ` (the source's float comparisons involve only
rational constants, and `Math.hypot` comparisons are embedded via squared
distances, which is equivalent because `Real.sqrt` is strictly monotone on
nonnegative inputs).  The hybrid camera controller is embedded over `ℝ` since it
uses `Math.pow(·, 1.5)`, trigonometry and vector normalization.
-/

/-- The four seasons (`src/unnamed/part_000`, `export type Season`). -/
inductive Season where
  | spring
  | summer
  | autumn
  | winter
deriving DecidableEq

/-- The gesture enumeration of `HandData` in `src/components/GestureHandler.tsx`
and `src/unnamed/part_001`. -/
inductive Gesture where
  | none
  | single
  | dual_fist
  | dual_open
  | dual_1
  | dual_2
  | dual_3
  | dual_4
deriving DecidableEq

/-- One 2-D hand landmark (only `x` and `y` are read by `countFingers`). -/
structure Landmark where
  x : ℚ
  y : ℚ
deriving DecidableEq

/-- Squared planar distance.  `Math.hypot (a.x-b.x) (a.y-b.y) > Math.hypot ...`
in the source is embedded as `distSq a b > distSq ...`, which is equivalent by
strict monotonicity of the square root on nonnegatives. -/
def distSq (a b : Landmark) : ℚ :=
  (a.x - b.x) ^ 2 + (a.y - b.y) ^ 2

/-- `isFingerExtended` from `countFingers` (`GestureHandler.tsx` lines 190-196):
a long finger is extended iff its tip is farther from the wrist (landmark 0)
than its PIP joint is. -/
def isFingerExtended (lm : ℕ → Landmark) (tipIdx pipIdx : ℕ) : Bool :=
  distSq (lm tipIdx) (lm 0) > distSq (lm pipIdx) (lm 0)

/-- Thumb test from `countFingers` (`GestureHandler.tsx` lines 202-205): the
thumb is open iff the distance from the thumb tip (landmark 4) to the index
MCP (landmark 5) exceeds 0.08; in squared form the threshold is `(8/100)^2`. -/
def isThumbOpen (lm : ℕ → Landmark) : Bool :=
  distSq (lm 4) (lm 5) > (8 / 100 : ℚ) ^ 2

/-- `countFingers` (`GestureHandler.tsx` lines 184-214 and
`src/unnamed/part_001` lines 254-273): thumb plus the four long fingers
(index 8/6, middle 12/10, ring 16/14, pinky 20/18). -/
def countFingers (lm : ℕ → Landmark) : ℕ :=
  (if isThumbOpen lm then 1 else 0)
  + (if isFingerExtended lm 8 6 then 1 else 0)
  + (if isFingerExtended lm 12 10 then 1 else 0)
  + (if isFingerExtended lm 16 14 then 1 else 0)
  + (if isFingerExtended lm 20 18 then 1 else 0)

/-- The dual-hand gesture decision chain for exactly two detected hands
(`GestureHandler.tsx` lines 124-131, `src/unnamed/part_001` lines 144-150). -/
def dualGesture (f1 f2 : ℕ) : Gesture :=
  if 4 ≤ f1 ∧ 4 ≤ f2 then .dual_open
  else if f1 = 0 ∧ f2 = 0 then .dual_fist
  else if f1 = 1 ∧ f2 = 1 then .dual_1
  else if f1 = 2 ∧ f2 = 2 then .dual_2
  else if f1 = 3 ∧ f2 = 3 then .dual_3
  else if f1 = 4 ∧ f2 = 4 then .dual_4
  else .single

/-- The per-cycle classifier output (`HandData` in `src/unnamed/part_001`; the
independent face-pose fields `headYaw`/`headPitch` are carried by the same
record in the source but are produced by the separate face track and are not
touched by the hands track modelled here). -/
structure HandData where
  gesture : Gesture
  x : ℚ
  y : ℚ
  handCount : ℕ
deriving DecidableEq

/-- Hands track of `processCombinedResults` (`src/unnamed/part_001` lines
114-154): with zero hands the defaults `none, (0.5, 0.5), 0` stand; otherwise
the average mirrored wrist position is computed, and the gesture is the dual
resolution for exactly two hands and `single` otherwise. -/
def processHands (hands : List (ℕ → Landmark)) : HandData :=
  match hands with
  | [] => ⟨.none, 1 / 2, 1 / 2, 0⟩
  | hs =>
    let counts := hs.map countFingers
    let g : Gesture :=
      match counts with
      | [f1, f2] => dualGesture f1 f2
      | _ => .single
    ⟨g,
     (hs.map (fun lm => 1 - (lm 0).x)).sum / (hs.length : ℚ),
     (hs.map (fun lm => (lm 0).y)).sum / (hs.length : ℚ),
     hs.length⟩

/-- Claim C1 (corrected): the two-hand decision chain tests `both ≥ 4` first,
so `(4,4)` resolves to `dual_open` and `dual_k` is produced exactly for equal
counts `k ∈ {1,2,3}`; every mismatched pair that is not both `≥ 4` resolves to
`single`; and on a two-hand frame the classifier applies exactly this chain to
the two finger counts. -/
theorem dualGesture_resolution (f1 f2 : ℕ) :
    (4 ≤ f1 ∧ 4 ≤ f2 → dualGesture f1 f2 = Gesture.dual_open) ∧
    (f1 = 0 ∧ f2 = 0 → dualGesture f1 f2 = Gesture.dual_fist) ∧
    (f1 = 1 ∧ f2 = 1 → dualGesture f1 f2 = Gesture.dual_1) ∧
    (f1 = 2 ∧ f2 = 2 → dualGesture f1 f2 = Gesture.dual_2) ∧
    (f1 = 3 ∧ f2 = 3 → dualGesture f1 f2 = Gesture.dual_3) ∧
    (f1 ≠ f2 → ¬(4 ≤ f1 ∧ 4 ≤ f2) → dualGesture f1 f2 = Gesture.single) ∧
    (∀ lm1 lm2 : ℕ → Landmark,
      (processHands [lm1, lm2]).gesture = dualGesture (countFingers lm1) (countFingers lm2)) := by
  refine ⟨?_, ?_, ?_, ?_, ?_, ?_, fun lm1 lm2 => rfl⟩ <;>
    · intros
      unfold dualGesture
      split_ifs <;> first | rfl | omega

/-- Witness for C1's theorem at the concrete pair (2,2). -/
theorem dualGesture_resolution_witness : dualGesture 2 2 = Gesture.dual_2 :=
  (dualGesture_resolution 2 2).2.2.2.1 ⟨rfl, rfl⟩

/-- Counterexample to claim C1 as stated: both hands showing 4 fingers resolve
to `dual_open`, not `dual_4`. -/
theorem dualGesture_four_four_not_dual4 :
    dualGesture 4 4 = Gesture.dual_open ∧ dualGesture 4 4 ≠ Gesture.dual_4 := by
  decide

/-- Claim C5: whenever each of the four long-finger tips is farther from the
wrist than the corresponding PIP joint, and the thumb-tip-to-index-MCP distance
exceeds 0.08 (squared: `(8/100)^2`), `countFingers` returns 5. -/
theorem countFingers_allExtended_five (lm : ℕ → Landmark)
    (hThumb : distSq (lm 4) (lm 5) > (8 / 100 : ℚ) ^ 2)
    (hIndex : distSq (lm 8) (lm 0) > distSq (lm 6) (lm 0))
    (hMiddle : distSq (lm 12) (lm 0) > distSq (lm 10) (lm 0))
    (hRing : distSq (lm 16) (lm 0) > distSq (lm 14) (lm 0))
    (hPinky : distSq (lm 20) (lm 0) > distSq (lm 18) (lm 0)) :
    countFingers lm = 5 := by
  simp [countFingers, isThumbOpen, isFingerExtended,
    hThumb, hIndex, hMiddle, hRing, hPinky]

/-- Witness for C5's theorem on the concrete hand `lm n = (n, 0)`. -/
theorem countFingers_allExtended_five_witness :
    countFingers (fun n => ⟨(n : ℚ), 0⟩) = 5 :=
  countFingers_allExtended_five _ (by norm_num [distSq]) (by norm_num [distSq])
    (by norm_num [distSq]) (by norm_num [distSq]) (by norm_num [distSq])

/-- Gesture-to-season mapping of `handleHandUpdate` (`src/unnamed/part_000`
lines 215-219): `dual_1 → spring`, `dual_2 → summer`, `dual_3 → autumn`,
`dual_4 → winter`, anything else maps to no season. -/
def targetSeasonOf : Gesture → Option Season
  | .dual_1 => some .spring
  | .dual_2 => some .summer
  | .dual_3 => some .autumn
  | .dual_4 => some .winter
  | _ => none

/-- The mutable state read and written by `handleHandUpdate`
(`src/unnamed/part_000` lines 189-198): active `season`, the accumulated
`gestureHoldTimer` (ms), the previous cycle's gesture, and the UI-facing
pending season and progress fraction. -/
structure DebouncerState where
  season : Season
  gestureHoldTimer : ℚ
  lastGesture : Gesture
  pendingSeason : Option Season
  progress : ℚ
deriving DecidableEq

/-- `HOLD_DURATION` (`src/unnamed/part_000` line 222). -/
def HOLD_DURATION : ℚ := 1500

/-- One call of `handleHandUpdate` (`src/unnamed/part_000` lines 206-250) with
the wall-clock delta `dt` as input.  In the commit branch the source first sets
pending/progress and then immediately overwrites them with `null`/`0`; the net
effect is modelled. -/
def handleHandUpdate (s : DebouncerState) (g : Gesture) (dt : ℚ) : DebouncerState :=
  match targetSeasonOf g with
  | some target =>
    if target ≠ s.season then
      if g = s.lastGesture then
        let timer := s.gestureHoldTimer + dt
        if HOLD_DURATION ≤ timer then
          ⟨target, 0, g, none, 0⟩
        else
          ⟨s.season, timer, g, some target, min (timer / HOLD_DURATION) 1⟩
      else
        ⟨s.season, 0, g, some target, 0⟩
    else
      ⟨s.season, 0, g, none, 0⟩
  | none => ⟨s.season, 0, g, none, 0⟩

/-- Feeding a constant gesture through a list of update deltas. -/
def feedConst (s : DebouncerState) (g : Gesture) (dts : List ℚ) : DebouncerState :=
  dts.foldl (fun s d => handleHandUpdate s g d) s

/-- All intermediate states (including the start state) of `feedConst`. -/
def feedTrace (s : DebouncerState) (g : Gesture) : List ℚ → List DebouncerState
  | [] => [s]
  | d :: rest => s :: feedTrace (handleHandUpdate s g d) g rest

/-- Number of adjacent season changes along a list of seasons. -/
def countChanges : List Season → ℕ
  | a :: b :: rest => (if a = b then 0 else 1) + countChanges (b :: rest)
  | _ => 0

theorem feedConst_nil (s : DebouncerState) (g : Gesture) : feedConst s g [] = s := rfl

theorem feedConst_cons (s : DebouncerState) (g : Gesture) (d : ℚ) (dts : List ℚ) :
    feedConst s g (d :: dts) = feedConst (handleHandUpdate s g d) g dts := rfl

theorem feedTrace_shape (s : DebouncerState) (g : Gesture) (dts : List ℚ) :
    ∃ l, feedTrace s g dts = s :: l := by
  cases dts <;> exact ⟨_, rfl⟩

theorem countChanges_const (l : List Season) (a : Season) (h : ∀ x ∈ l, x = a) :
    countChanges l = 0 := by
  induction l with
  | nil => rfl
  | cons b rest ih =>
    cases rest with
    | nil => rfl
    | cons c rest2 =>
      have hb : b = a := h b (by simp)
      have hc : c = a := h c (by simp)
      have hrest : ∀ x ∈ c :: rest2, x = a := fun x hx => h x (by simp [List.mem_cons] at hx ⊢; tauto)
      have h0 := ih hrest
      rw [hc] at h0
      simp [countChanges, hb, hc, h0]

/-- Accumulation step: same gesture as the previous cycle, target differs from
the active season, hold not yet complete. -/
theorem handleHandUpdate_accum (s : DebouncerState) (g : Gesture) (t : Season) (d : ℚ)
    (hg : targetSeasonOf g = some t) (hne : t ≠ s.season) (hlast : s.lastGesture = g)
    (hlt : s.gestureHoldTimer + d < HOLD_DURATION) :
    handleHandUpdate s g d =
      ⟨s.season, s.gestureHoldTimer + d, g, some t,
        min ((s.gestureHoldTimer + d) / HOLD_DURATION) 1⟩ := by
  simp only [handleHandUpdate, hg]
  rw [if_pos hne, if_pos hlast.symm, if_neg (not_le.mpr hlt)]

/-- Commit step: hold reaches `HOLD_DURATION`. -/
theorem handleHandUpdate_commit (s : DebouncerState) (g : Gesture) (t : Season) (d : ℚ)
    (hg : targetSeasonOf g = some t) (hne : t ≠ s.season) (hlast : s.lastGesture = g)
    (hge : HOLD_DURATION ≤ s.gestureHoldTimer + d) :
    handleHandUpdate s g d = ⟨t, 0, g, none, 0⟩ := by
  simp only [handleHandUpdate, hg]
  rw [if_pos hne, if_pos hlast.symm, if_pos hge]

/-- Reset step: the gesture differs from the previous cycle's, so the new
target starts holding from zero with progress 0. -/
theorem handleHandUpdate_reset (s : DebouncerState) (g : Gesture) (t : Season) (d : ℚ)
    (hg : targetSeasonOf g = some t) (hne : t ≠ s.season) (hlast : s.lastGesture ≠ g) :
    handleHandUpdate s g d = ⟨s.season, 0, g, some t, 0⟩ := by
  simp only [handleHandUpdate, hg]
  rw [if_pos hne, if_neg (fun h => hlast h.symm)]

/-- Same-season step: the gesture maps to the already-active season. -/
theorem handleHandUpdate_active (s : DebouncerState) (g : Gesture) (d : ℚ)
    (hg : targetSeasonOf g = some s.season) :
    handleHandUpdate s g d = ⟨s.season, 0, g, none, 0⟩ := by
  simp [handleHandUpdate, hg]

/-- No-target step: the gesture maps to no season. -/
theorem handleHandUpdate_noTarget (s : DebouncerState) (g : Gesture) (d : ℚ)
    (hg : targetSeasonOf g = none) :
    handleHandUpdate s g d = ⟨s.season, 0, g, none, 0⟩ := by
  simp [handleHandUpdate, hg]

theorem feedTrace_nil (s : DebouncerState) (g : Gesture) : feedTrace s g [] = [s] := rfl

theorem feedTrace_cons (s : DebouncerState) (g : Gesture) (d : ℚ) (dts : List ℚ) :
    feedTrace s g (d :: dts) = s :: feedTrace (handleHandUpdate s g d) g dts := rfl

/-- The state while a target season `t` is being held with accumulated time `h`
and active season `σ` (the shape produced by the accumulate and reset branches
of `handleHandUpdate`). -/
def holdingState (g : Gesture) (t σ : Season) (h : ℚ) : DebouncerState :=
  ⟨σ, h, g, some t, min (h / HOLD_DURATION) 1⟩

/-- The state right after a commit: new active season, Idle, progress 0. -/
def committedState (g : Gesture) (t : Season) : DebouncerState :=
  ⟨t, 0, g, none, 0⟩

/-- After a commit, further updates with the same gesture leave the state
fixed (the gesture now maps to the active season). -/
theorem feed_committed (g : Gesture) (t : Season) (hg : targetSeasonOf g = some t)
    (dts : List ℚ) :
    feedConst (committedState g t) g dts = committedState g t ∧
    ∀ x ∈ feedTrace (committedState g t) g dts, x = committedState g t := by
  induction dts with
  | nil => exact ⟨rfl, by intro x hx; simpa [feedTrace_nil] using hx⟩
  | cons d rest ih =>
    have hstep : handleHandUpdate (committedState g t) g d = committedState g t :=
      handleHandUpdate_active _ g d hg
    refine ⟨?_, ?_⟩
    · rw [feedConst_cons, hstep]; exact ih.1
    · intro x hx
      rw [feedTrace_cons, hstep] at hx
      rcases List.mem_cons.mp hx with hxe | hxm
      · exact hxe
      · exact ih.2 x hxm

/-- Core run lemma for the debouncer: starting from a holding state with
accumulated time `h < 1500` for a target `t ≠ σ`, a run of same-gesture updates
with nonnegative deltas (a) commits to `t` exactly once and ends Idle when the
cumulative time reaches `HOLD_DURATION`, (b) keeps accumulating with season
unchanged otherwise, and (c) every intermediate state is either a holding state
for `t` with progress `min (elapsed / 1500) 1`, or the committed state. -/
theorem hold_run (g : Gesture) (t : Season) (hg : targetSeasonOf g = some t) :
    ∀ (dts : List ℚ) (σ : Season) (h : ℚ),
      t ≠ σ → 0 ≤ h → h < HOLD_DURATION → (∀ d ∈ dts, 0 ≤ d) →
      ((HOLD_DURATION ≤ h + dts.sum →
          feedConst (holdingState g t σ h) g dts = committedState g t ∧
          countChanges ((feedTrace (holdingState g t σ h) g dts).map (fun x => x.season)) = 1) ∧
       (h + dts.sum < HOLD_DURATION →
          feedConst (holdingState g t σ h) g dts = holdingState g t σ (h + dts.sum) ∧
          ∀ x ∈ feedTrace (holdingState g t σ h) g dts, x.season = σ) ∧
       (∀ x ∈ feedTrace (holdingState g t σ h) g dts,
          (x.season = σ ∧ x.pendingSeason = some t ∧ 0 ≤ x.gestureHoldTimer ∧
           x.progress = min (x.gestureHoldTimer / HOLD_DURATION) 1) ∨
          x = committedState g t)) := by
  intro dts
  induction dts with
  | nil =>
    intro σ h hne hh0 hhlt hd
    refine ⟨fun hge => absurd hge (by simp; linarith), fun _ => ⟨by simp [feedConst_nil], ?_⟩, ?_⟩
    · intro x hx
      rw [feedTrace_nil] at hx
      rcases List.mem_cons.mp hx with hxe | hxm
      · rw [hxe]; rfl
      · simp at hxm
    · intro x hx
      rw [feedTrace_nil] at hx
      rcases List.mem_cons.mp hx with hxe | hxm
      · left; rw [hxe]; exact ⟨rfl, rfl, hh0, rfl⟩
      · simp at hxm
  | cons d rest ih =>
    intro σ h hne hh0 hhlt hd
    have hd0 : 0 ≤ d := hd d (by simp)
    have hdrest : ∀ x ∈ rest, 0 ≤ x := fun x hx => hd x (by simp [hx])
    have hsrest : 0 ≤ rest.sum := List.sum_nonneg hdrest
    have hsum : (d :: rest).sum = d + rest.sum := by simp
    by_cases hc : HOLD_DURATION ≤ h + d
    · have hstep : handleHandUpdate (holdingState g t σ h) g d = committedState g t :=
        handleHandUpdate_commit _ g t d hg hne rfl hc
      have htr : feedTrace (holdingState g t σ h) g (d :: rest)
          = holdingState g t σ h :: feedTrace (committedState g t) g rest := by
        rw [feedTrace_cons, hstep]
      have hfix := feed_committed g t hg rest
      refine ⟨fun _ => ⟨?_, ?_⟩, fun hlt => absurd hlt (by rw [hsum]; push_neg; linarith), ?_⟩
      · rw [feedConst_cons, hstep]; exact hfix.1
      · have hall : ∀ x ∈ (feedTrace (committedState g t) g rest).map (fun y => y.season), x = t := by
          intro x hx
          obtain ⟨y, hy, rfl⟩ := List.mem_map.mp hx
          rw [hfix.2 y hy]; rfl
        have hzero := countChanges_const _ t hall
        obtain ⟨l, hl⟩ := feedTrace_shape (committedState g t) g rest
        rw [htr, hl]
        rw [hl] at hzero
        simp only [List.map_cons] at hzero ⊢
        dsimp only [committedState, holdingState] at hzero ⊢
        simp only [countChanges]
        rw [if_neg (fun hcontra => hne hcontra.symm), hzero]
      · intro x hx
        rw [htr] at hx
        rcases List.mem_cons.mp hx with hxe | hxm
        · left; rw [hxe]; exact ⟨rfl, rfl, hh0, rfl⟩
        · right; exact hfix.2 x hxm
    · push_neg at hc
      have hstep : handleHandUpdate (holdingState g t σ h) g d = holdingState g t σ (h + d) :=
        handleHandUpdate_accum _ g t d hg hne rfl hc
      have htr : feedTrace (holdingState g t σ h) g (d :: rest)
          = holdingState g t σ h :: feedTrace (holdingState g t σ (h + d)) g rest := by
        rw [feedTrace_cons, hstep]
      have ih' := ih σ (h + d) hne (by linarith) hc hdrest
      refine ⟨?_, ?_, ?_⟩
      · intro hge
        have hge' : HOLD_DURATION ≤ (h + d) + rest.sum := by rw [hsum] at hge; linarith
        obtain ⟨hfeed, hcount⟩ := ih'.1 hge'
        refine ⟨by rw [feedConst_cons, hstep]; exact hfeed, ?_⟩
        obtain ⟨l, hl⟩ := feedTrace_shape (holdingState g t σ (h + d)) g rest
        rw [htr, hl]
        rw [hl] at hcount
        simp only [List.map_cons] at hcount ⊢
        dsimp only [holdingState] at hcount ⊢
        simp only [countChanges]
        simp [hcount]
      · intro hlt
        have hlt' : (h + d) + rest.sum < HOLD_DURATION := by rw [hsum] at hlt; linarith
        obtain ⟨hfeed, hall⟩ := ih'.2.1 hlt'
        refine ⟨?_, ?_⟩
        · rw [feedConst_cons, hstep, hfeed, hsum, ← add_assoc]
        · intro x hx
          rw [htr] at hx
          rcases List.mem_cons.mp hx with hxe | hxm
          · rw [hxe]; rfl
          · exact hall x hxm
      · intro x hx
        rw [htr] at hx
        rcases List.mem_cons.mp hx with hxe | hxm
        · left; rw [hxe]; exact ⟨rfl, rfl, hh0, rfl⟩
        · exact ih'.2.2 x hxm

/-- First update of a qualifying gesture from a state with zero hold timer:
either it commits immediately (only possible when the same gesture was already
the previous cycle's and the delta alone reaches the hold duration) or it
leaves a holding state with less than the hold duration accumulated. -/
theorem start_cases (s0 : DebouncerState) (g : Gesture) (t : Season) (d0 : ℚ)
    (hg : targetSeasonOf g = some t) (hne : t ≠ s0.season) (h0 : s0.gestureHoldTimer = 0)
    (hd0 : 0 ≤ d0) :
    handleHandUpdate s0 g d0 = committedState g t ∨
    ∃ h1, 0 ≤ h1 ∧ h1 < HOLD_DURATION ∧
      handleHandUpdate s0 g d0 = holdingState g t s0.season h1 := by
  by_cases hl : s0.lastGesture = g
  · by_cases hcommit : HOLD_DURATION ≤ s0.gestureHoldTimer + d0
    · left; exact handleHandUpdate_commit s0 g t d0 hg hne hl hcommit
    · push_neg at hcommit
      right
      refine ⟨s0.gestureHoldTimer + d0, by rw [h0, zero_add]; exact hd0, hcommit, ?_⟩
      rw [handleHandUpdate_accum s0 g t d0 hg hne hl hcommit]; rfl
  · right
    refine ⟨0, le_refl 0, by norm_num [HOLD_DURATION], ?_⟩
    rw [handleHandUpdate_reset s0 g t d0 hg hne hl]
    norm_num [holdingState, HOLD_DURATION]

/-- Claim C3: from an Idle state (zero hold timer, no pending target), feeding
a constant gesture mapping to a target `t ≠` the active season — one arrival
update followed by updates whose deltas cumulate to at least `HOLD_DURATION` —
commits the active season to `t` exactly once (exactly one season change along
the trace) and ends Idle with progress 0; feeding the same gesture with
cumulative hold below `HOLD_DURATION` and then a gesture mapping to no season
never commits (every trace state keeps the original season) and ends with
progress 0 and no pending target. -/
theorem debouncer_holdToConfirm :
    (∀ (s0 : DebouncerState) (g : Gesture) (t : Season) (d0 : ℚ) (dts : List ℚ),
       s0.gestureHoldTimer = 0 → s0.pendingSeason = none →
       targetSeasonOf g = some t → t ≠ s0.season →
       0 ≤ d0 → (∀ d ∈ dts, 0 ≤ d) → HOLD_DURATION ≤ dts.sum →
       feedConst s0 g (d0 :: dts) = committedState g t ∧
       countChanges ((feedTrace s0 g (d0 :: dts)).map (fun x => x.season)) = 1) ∧
    (∀ (s0 : DebouncerState) (g gNull : Gesture) (t : Season) (d0 dNull : ℚ) (dts : List ℚ),
       s0.gestureHoldTimer = 0 → s0.pendingSeason = none → s0.lastGesture ≠ g →
       targetSeasonOf g = some t → t ≠ s0.season →
       targetSeasonOf gNull = none →
       0 ≤ d0 → (∀ d ∈ dts, 0 ≤ d) → dts.sum < HOLD_DURATION →
       (handleHandUpdate (feedConst s0 g (d0 :: dts)) gNull dNull).season = s0.season ∧
       (handleHandUpdate (feedConst s0 g (d0 :: dts)) gNull dNull).pendingSeason = none ∧
       (handleHandUpdate (feedConst s0 g (d0 :: dts)) gNull dNull).progress = 0 ∧
       (∀ x ∈ feedTrace s0 g (d0 :: dts), x.season = s0.season)) := by
  constructor
  · intro s0 g t d0 dts h0 hpnone hg hne hd0 hd hsum
    rcases start_cases s0 g t d0 hg hne h0 hd0 with hcs | ⟨h1, hh1, hh1lt, hcs⟩
    · have hfix := feed_committed g t hg dts
      constructor
      · rw [feedConst_cons, hcs]; exact hfix.1
      · have hall : ∀ x ∈ (feedTrace (committedState g t) g dts).map (fun y => y.season), x = t := by
          intro x hx
          obtain ⟨y, hy, rfl⟩ := List.mem_map.mp hx
          rw [hfix.2 y hy]; rfl
        have hzero := countChanges_const _ t hall
        obtain ⟨l, hl⟩ := feedTrace_shape (committedState g t) g dts
        rw [feedTrace_cons, hcs, hl]
        rw [hl] at hzero
        simp only [List.map_cons] at hzero ⊢
        dsimp only [committedState] at hzero ⊢
        simp only [countChanges]
        rw [if_neg (fun hcontra => hne hcontra.symm), hzero]
    · have hrun := hold_run g t hg dts s0.season h1 hne hh1 hh1lt hd
      have hge : HOLD_DURATION ≤ h1 + dts.sum := by linarith
      obtain ⟨hfeed, hcount⟩ := hrun.1 hge
      constructor
      · rw [feedConst_cons, hcs]; exact hfeed
      · obtain ⟨l, hl⟩ := feedTrace_shape (holdingState g t s0.season h1) g dts
        rw [feedTrace_cons, hcs, hl]
        rw [hl] at hcount
        simp only [List.map_cons] at hcount ⊢
        dsimp only [holdingState] at hcount ⊢
        simp only [countChanges]
        simp [hcount]
  · intro s0 g gNull t d0 dNull dts h0 hpnone hlneq hg hne hgn hd0 hd hsum
    have hcs : handleHandUpdate s0 g d0 = holdingState g t s0.season 0 := by
      rw [handleHandUpdate_reset s0 g t d0 hg hne hlneq]
      norm_num [holdingState, HOLD_DURATION]
    have hrun := hold_run g t hg dts s0.season 0 hne (le_refl 0) (by norm_num [HOLD_DURATION]) hd
    have hlt : (0 : ℚ) + dts.sum < HOLD_DURATION := by rw [zero_add]; exact hsum
    obtain ⟨hfeed, hall⟩ := hrun.2.1 hlt
    have hfc : feedConst s0 g (d0 :: dts) = holdingState g t s0.season (0 + dts.sum) := by
      rw [feedConst_cons, hcs]; exact hfeed
    have hfinal := handleHandUpdate_noTarget (holdingState g t s0.season (0 + dts.sum)) gNull dNull hgn
    refine ⟨?_, ?_, ?_, ?_⟩
    · rw [hfc, hfinal]; rfl
    · rw [hfc, hfinal]
    · rw [hfc, hfinal]
    · intro x hx
      rw [feedTrace_cons, hcs] at hx
      rcases List.mem_cons.mp hx with hxe | hxm
      · rw [hxe]
      · exact hall x hxm

/-- Witness for C3's theorem: from summer Idle, holding `dual_1` (→ spring)
for 16 + 800 + 800 ms commits spring with exactly one season change. -/
theorem debouncer_holdToConfirm_witness :
    feedConst ⟨Season.summer, 0, Gesture.none, none, 0⟩ Gesture.dual_1 [16, 800, 800]
      = committedState Gesture.dual_1 Season.spring ∧
    countChanges ((feedTrace ⟨Season.summer, 0, Gesture.none, none, 0⟩ Gesture.dual_1
      [16, 800, 800]).map (fun x => x.season)) = 1 :=
  debouncer_holdToConfirm.1 ⟨Season.summer, 0, Gesture.none, none, 0⟩ Gesture.dual_1
    Season.spring 16 [800, 800] rfl rfl rfl (by decide) (by norm_num)
    (by intro d hd; fin_cases hd <;> norm_num) (by norm_num [HOLD_DURATION])

/-- Claim C2 (corrected): from active season summer, the gesture that drives a
transition to autumn is `dual_3` (both hands showing 3 fingers); `dual_2` maps
to summer itself.  Holding `dual_3`: the arrival update makes the pending
season autumn with progress 0, every later state while holding reports pending
autumn with progress `min (elapsed / 1500) 1`, and once the cumulative hold
time reaches `HOLD_DURATION` the active season becomes autumn (Idle again,
progress 0). -/
theorem seasonScenario_dual3_summer_to_autumn (d0 : ℚ) (dts : List ℚ)
    (_hd0 : 0 ≤ d0) (hd : ∀ d ∈ dts, 0 ≤ d) (hsum : HOLD_DURATION ≤ dts.sum) :
    (handleHandUpdate ⟨Season.summer, 0, Gesture.none, none, 0⟩ Gesture.dual_3 d0).pendingSeason
      = some Season.autumn ∧
    (handleHandUpdate ⟨Season.summer, 0, Gesture.none, none, 0⟩ Gesture.dual_3 d0).progress = 0 ∧
    (handleHandUpdate ⟨Season.summer, 0, Gesture.none, none, 0⟩ Gesture.dual_3 d0).season
      = Season.summer ∧
    (∀ x ∈ feedTrace (handleHandUpdate ⟨Season.summer, 0, Gesture.none, none, 0⟩ Gesture.dual_3 d0)
        Gesture.dual_3 dts,
       (x.season = Season.summer ∧ x.pendingSeason = some Season.autumn ∧
        0 ≤ x.gestureHoldTimer ∧ x.progress = min (x.gestureHoldTimer / HOLD_DURATION) 1) ∨
       x = committedState Gesture.dual_3 Season.autumn) ∧
    feedConst (handleHandUpdate ⟨Season.summer, 0, Gesture.none, none, 0⟩ Gesture.dual_3 d0)
        Gesture.dual_3 dts
      = committedState Gesture.dual_3 Season.autumn := by
  have hcs : handleHandUpdate ⟨Season.summer, 0, Gesture.none, none, 0⟩ Gesture.dual_3 d0
      = holdingState Gesture.dual_3 Season.autumn Season.summer 0 := by
    rw [handleHandUpdate_reset _ Gesture.dual_3 Season.autumn d0 rfl (by decide) (by decide)]
    norm_num [holdingState, HOLD_DURATION]
  have hrun := hold_run Gesture.dual_3 Season.autumn rfl dts Season.summer 0 (by decide)
    (le_refl 0) (by norm_num [HOLD_DURATION]) hd
  obtain ⟨hfeed, hcount⟩ := hrun.1 (by rw [zero_add]; exact hsum)
  refine ⟨by rw [hcs]; rfl, by rw [hcs]; norm_num [holdingState, HOLD_DURATION], by rw [hcs]; rfl, ?_, ?_⟩
  · intro x hx
    rw [hcs] at hx
    exact hrun.2.2 x hx
  · rw [hcs]; exact hfeed

/-- Witness for C2's amended theorem at deltas 16 then 800 + 800 ms. -/
theorem seasonScenario_dual3_witness :
    (handleHandUpdate ⟨Season.summer, 0, Gesture.none, none, 0⟩ Gesture.dual_3 16).pendingSeason
      = some Season.autumn ∧
    feedConst (handleHandUpdate ⟨Season.summer, 0, Gesture.none, none, 0⟩ Gesture.dual_3 16)
        Gesture.dual_3 [800, 800]
      = committedState Gesture.dual_3 Season.autumn := by
  have h := seasonScenario_dual3_summer_to_autumn 16 [800, 800] (by norm_num)
    (by intro d hd; fin_cases hd <;> norm_num) (by norm_num [HOLD_DURATION])
  exact ⟨h.1, h.2.2.2.2⟩

/-- Counterexample to claim C2 as stated: `dual_2` maps to summer, so with
summer active it is force-Idled every update — 2000 ms of sustained `dual_2`
leaves the season summer (never autumn) and never even makes autumn pending. -/
theorem dual2_from_summer_never_autumn :
    feedConst ⟨Season.summer, 0, Gesture.none, none, 0⟩ Gesture.dual_2 [500, 500, 500, 500]
      = ⟨Season.summer, 0, Gesture.dual_2, none, 0⟩ ∧
    (feedConst ⟨Season.summer, 0, Gesture.none, none, 0⟩ Gesture.dual_2
      [500, 500, 500, 500]).season ≠ Season.autumn ∧
    ∀ x ∈ feedTrace ⟨Season.summer, 0, Gesture.none, none, 0⟩ Gesture.dual_2 [500, 500, 500, 500],
      x.pendingSeason ≠ some Season.autumn := by
  have h1 : handleHandUpdate ⟨Season.summer, 0, Gesture.none, none, 0⟩ Gesture.dual_2 500
      = ⟨Season.summer, 0, Gesture.dual_2, none, 0⟩ :=
    handleHandUpdate_active _ Gesture.dual_2 500 rfl
  have h2 : handleHandUpdate ⟨Season.summer, 0, Gesture.dual_2, none, 0⟩ Gesture.dual_2 500
      = ⟨Season.summer, 0, Gesture.dual_2, none, 0⟩ :=
    handleHandUpdate_active _ Gesture.dual_2 500 rfl
  have hfc : feedConst ⟨Season.summer, 0, Gesture.none, none, 0⟩ Gesture.dual_2
      [500, 500, 500, 500] = ⟨Season.summer, 0, Gesture.dual_2, none, 0⟩ := by
    rw [feedConst_cons, h1, feedConst_cons, h2, feedConst_cons, h2, feedConst_cons, h2,
      feedConst_nil]
  refine ⟨hfc, by rw [hfc]; decide, ?_⟩
  intro x hx
  rw [feedTrace_cons, h1, feedTrace_cons, h2, feedTrace_cons, h2, feedTrace_cons, h2,
    feedTrace_nil] at hx
  simp only [List.mem_cons, List.not_mem_nil, or_false] at hx
  rcases hx with rfl | rfl | rfl | rfl | rfl <;> decide

/-- Claim C4: while holding a target `t` (previous gesture maps to `t`, pending
`t`, any accumulated time), an update whose gesture maps to a different
qualifying target `tNew` resets the hold timer to 0, sets the pending target to
`tNew`, and reports progress 0 on that same update. -/
theorem debouncer_switchTarget_resets (s : DebouncerState) (gNew : Gesture)
    (t tNew : Season) (d : ℚ)
    (hold : targetSeasonOf s.lastGesture = some t)
    (_hpend : s.pendingSeason = some t)
    (hgNew : targetSeasonOf gNew = some tNew)
    (hneOld : tNew ≠ t) (hneAct : tNew ≠ s.season) :
    handleHandUpdate s gNew d = ⟨s.season, 0, gNew, some tNew, 0⟩ := by
  have hlast : s.lastGesture ≠ gNew := by
    intro h
    rw [h, hgNew] at hold
    exact hneOld (Option.some.inj hold)
  exact handleHandUpdate_reset s gNew tNew d hgNew hneAct hlast

/-- Witness for C4's theorem: 700 ms into holding spring (via `dual_1`),
switching to `dual_4` (→ winter) resets the timer and progress at once. -/
theorem debouncer_switchTarget_resets_witness :
    handleHandUpdate ⟨Season.summer, 700, Gesture.dual_1, some Season.spring, 7 / 15⟩
        Gesture.dual_4 16
      = ⟨Season.summer, 0, Gesture.dual_4, some Season.winter, 0⟩ :=
  debouncer_switchTarget_resets _ Gesture.dual_4 Season.spring Season.winter 16
    rfl rfl rfl (by decide) (by decide)

/-- With a gesture mapping to no season, any nonempty update run force-Idles
the debouncer: season unchanged, timer 0, no pending target, progress 0. -/
theorem feed_noTarget (g : Gesture) (hg : targetSeasonOf g = none) :
    ∀ (dts : List ℚ) (s : DebouncerState) (d : ℚ),
      feedConst s g (d :: dts) = ⟨s.season, 0, g, none, 0⟩ := by
  intro dts
  induction dts with
  | nil => intro s d; rw [feedConst_cons, handleHandUpdate_noTarget s g d hg, feedConst_nil]
  | cons d2 rest ih =>
    intro s d
    rw [feedConst_cons, handleHandUpdate_noTarget s g d hg]
    exact ih ⟨s.season, 0, g, none, 0⟩ d2

/-- Claim C7: with zero hands the classifier reports gesture `none`, average
position exactly (1/2, 1/2) and hand count 0 (every cycle, it being a pure
function of the frame); and feeding any nonempty run of the resulting `none`
gesture to the debouncer clears any pending transition: season unchanged,
no pending target, progress 0, hold timer 0. -/
theorem classifier_noHands_neutral :
    processHands [] = ⟨Gesture.none, 1 / 2, 1 / 2, 0⟩ ∧
    (∀ (s : DebouncerState) (d : ℚ) (dts : List ℚ),
       (feedConst s Gesture.none (d :: dts)).season = s.season ∧
       (feedConst s Gesture.none (d :: dts)).pendingSeason = none ∧
       (feedConst s Gesture.none (d :: dts)).progress = 0 ∧
       (feedConst s Gesture.none (d :: dts)).gestureHoldTimer = 0) := by
  refine ⟨rfl, fun s d dts => ?_⟩
  rw [feed_noTarget Gesture.none rfl dts s d]
  exact ⟨rfl, rfl, rfl, rfl⟩

noncomputable section

/-- A three.js `Vector3`. -/
structure Vec3 where
  x : ℝ
  y : ℝ
  z : ℝ

/-- `Vector3.addScaledVector`. -/
def addScaled (a v : Vec3) (c : ℝ) : Vec3 :=
  ⟨a.x + v.x * c, a.y + v.y * c, a.z + v.z * c⟩

/-- `Vector3.lengthSq`. -/
def lengthSq (v : Vec3) : ℝ := v.x ^ 2 + v.y ^ 2 + v.z ^ 2

/-- `Vector3.normalize` (three.js divides by `length() || 1`, so the zero
vector stays zero). -/
def normalize3 (v : Vec3) : Vec3 :=
  let l := Real.sqrt (lengthSq v)
  if l = 0 then v else ⟨v.x / l, v.y / l, v.z / l⟩

/-- `Vector3.lerp a b t = a + (b - a) * t` componentwise. -/
def lerp3 (a b : Vec3) (t : ℝ) : Vec3 :=
  ⟨a.x + (b.x - a.x) * t, a.y + (b.y - a.y) * t, a.z + (b.z - a.z) * t⟩

/-- Rotation by angle `θ` about the x-axis (right-handed). -/
def rotX (θ : ℝ) (v : Vec3) : Vec3 :=
  ⟨v.x, v.y * Real.cos θ - v.z * Real.sin θ, v.y * Real.sin θ + v.z * Real.cos θ⟩

/-- Rotation by angle `θ` about the y-axis (right-handed). -/
def rotY (θ : ℝ) (v : Vec3) : Vec3 :=
  ⟨v.x * Real.cos θ + v.z * Real.sin θ, v.y, -v.x * Real.sin θ + v.z * Real.cos θ⟩

/-- `applyQuaternion(camera.quaternion)` for a camera with Euler order `YXZ`
(z component zero): yaw about y applied after pitch about x. -/
def applyYXZ (yaw pitch : ℝ) (v : Vec3) : Vec3 :=
  rotY yaw (rotX pitch v)

/-- `Math.sign input * Math.pow (Math.abs input) 1.5`, the super-linear
response curve used by `HybridController` (`ForestScene.tsx` lines 95-127). -/
def superCurve (input : ℝ) : ℝ :=
  (if 0 < input then 1 else if input < 0 then -1 else 0) * |input| ^ (1.5 : ℝ)

/-- Per-frame input of the `useFrame` body of `HybridController`
(`ForestScene.tsx` lines 91-153): the current `handData` fields, the keyboard
state (`keyW` stands for `KeyW ∨ ArrowUp`, and so on), and the frame delta. -/
structure CamInput where
  headYaw : ℝ
  headPitch : ℝ
  gesture : Gesture
  handCount : ℕ
  x : ℝ
  y : ℝ
  keyW : Bool
  keyS : Bool
  keyA : Bool
  keyD : Bool
  delta : ℝ

/-- The controller's persistent refs (`ForestScene.tsx` lines 76-78) together
with the camera pose it writes. -/
structure CamState where
  yaw : ℝ
  pitch : ℝ
  vel : Vec3
  pos : Vec3

/-- `forwardSpeed` accumulation (`ForestScene.tsx` lines 110-131): gesture term
only when hands are present (`dual_open` +8, `dual_fist` −5), then ±12 for the
forward/back keys. -/
def forwardSpeedOf (i : CamInput) : ℝ :=
  (if 0 < i.handCount then
     (if i.gesture = Gesture.dual_open then 8
      else if i.gesture = Gesture.dual_fist then -5 else 0)
   else 0)
  + (if i.keyW then 12 else 0) + (if i.keyS then -12 else 0)

/-- `strafeSpeed` accumulation (`ForestScene.tsx` lines 119-123, 132-133):
hand-position term beyond the 0.25 deadzone, then ±12 for the strafe keys. -/
def strafeSpeedOf (i : CamInput) : ℝ :=
  (if 0 < i.handCount ∧ 0.25 < |i.x - 0.5| then superCurve (i.x - 0.5) * 15 else 0)
  + (if i.keyA then -12 else 0) + (if i.keyD then 12 else 0)

/-- `verticalSpeed` (`ForestScene.tsx` lines 124-128): hand-position term
beyond the 0.25 deadzone, sign-inverted (hand up means camera up). -/
def verticalSpeedOf (i : CamInput) : ℝ :=
  if 0 < i.handCount ∧ 0.25 < |i.y - 0.5| then -(superCurve (i.y - 0.5) * 8) else 0

/-- One `useFrame` call of `HybridController` (`ForestScene.tsx` lines
91-153): head-pose rotation with 0.15 deadzone and super-linear curve, pitch
clamped to `[-1.4, 1.4]`, translation target built on the flattened camera
axes, velocity lerped with damping 10 (idle) or 3 (driven), position advanced
only when `lengthSq > 0.01`, and the camera height floor-clamped at 2. -/
def camStep (s : CamState) (i : CamInput) : CamState :=
  let rotSpeedY := if 0.15 < |i.headYaw| then superCurve i.headYaw * 2.0 else 0
  let rotSpeedX := if 0.15 < |i.headPitch| then superCurve i.headPitch * 1.5 else 0
  let yaw := s.yaw - rotSpeedY * i.delta
  let pitch := max (-1.4) (min 1.4 (s.pitch + rotSpeedX * i.delta))
  let fwd0 := applyYXZ yaw pitch ⟨0, 0, -1⟩
  let forward := normalize3 ⟨fwd0.x, 0, fwd0.z⟩
  let right0 := applyYXZ yaw pitch ⟨1, 0, 0⟩
  let right := normalize3 ⟨right0.x, 0, right0.z⟩
  let fS := forwardSpeedOf i
  let sS := strafeSpeedOf i
  let vS := verticalSpeedOf i
  let targetVelocity := addScaled (addScaled (addScaled ⟨0, 0, 0⟩ forward fS) right sS) ⟨0, 1, 0⟩ vS
  let damping : ℝ := if fS = 0 ∧ sS = 0 ∧ vS = 0 then 10 else 3
  let vel := lerp3 s.vel targetVelocity (i.delta * damping)
  let pos1 := if 0.01 < lengthSq vel then addScaled s.pos vel i.delta else s.pos
  ⟨yaw, pitch, vel, ⟨pos1.x, if pos1.y < 2 then 2 else pos1.y, pos1.z⟩⟩

end

theorem clamp_floor (y : ℝ) : 2 ≤ if y < 2 then 2 else y := by
  split_ifs with h
  · exact le_refl 2
  · exact le_of_not_lt h

theorem camStep_bounds (s : CamState) (i : CamInput) :
    -1.4 ≤ (camStep s i).pitch ∧ (camStep s i).pitch ≤ 1.4 ∧ 2 ≤ (camStep s i).pos.y :=
  ⟨le_max_left _ _, max_le (by norm_num) (min_le_left _ _), clamp_floor _⟩

/-- Claim C6: after every frame update of the hybrid controller — whatever
sequence of inputs and frame deltas preceded it — the accumulated pitch lies
in `[-1.4, 1.4]` and the camera height is at least 2. -/
theorem hybridController_pitch_clamped_and_floor (s : CamState) (i : CamInput)
    (rest : List CamInput) :
    -1.4 ≤ (rest.foldl camStep (camStep s i)).pitch ∧
    (rest.foldl camStep (camStep s i)).pitch ≤ 1.4 ∧
    2 ≤ (rest.foldl camStep (camStep s i)).pos.y := by
  induction rest generalizing s i with
  | nil => exact camStep_bounds s i
  | cons j rest ih => exact ih (camStep s i) j

/-- Claim C8: with `handCount = 0` every hand-driven term vanishes and the
speeds reduce to the keyboard contributions; with hands present, `dual_open`
contributes +8 and `dual_fist` −5 to the forward speed on top of the keyboard
terms; and each keyboard key contributes its ±12 additively, whatever the hand
input. -/
theorem hybridController_speed_terms (i : CamInput) :
    (i.handCount = 0 →
       forwardSpeedOf i = (if i.keyW then 12 else 0) + (if i.keyS then -12 else 0) ∧
       strafeSpeedOf i = (if i.keyA then -12 else 0) + (if i.keyD then 12 else 0) ∧
       verticalSpeedOf i = 0) ∧
    (0 < i.handCount → i.gesture = Gesture.dual_open →
       forwardSpeedOf i = 8 + ((if i.keyW then 12 else 0) + (if i.keyS then -12 else 0))) ∧
    (0 < i.handCount → i.gesture = Gesture.dual_fist →
       forwardSpeedOf i = -5 + ((if i.keyW then 12 else 0) + (if i.keyS then -12 else 0))) ∧
    forwardSpeedOf { i with keyW := true } = forwardSpeedOf { i with keyW := false } + 12 ∧
    forwardSpeedOf { i with keyS := true } = forwardSpeedOf { i with keyS := false } - 12 ∧
    strafeSpeedOf { i with keyA := true } = strafeSpeedOf { i with keyA := false } - 12 ∧
    strafeSpeedOf { i with keyD := true } = strafeSpeedOf { i with keyD := false } + 12 := by
  refine ⟨?_, ?_, ?_, ?_, ?_, ?_, ?_⟩
  · intro h0
    rw [forwardSpeedOf, strafeSpeedOf, verticalSpeedOf]
    simp [h0]
  · intro hpos hg
    rw [forwardSpeedOf]
    simp [hpos, hg]
    ring
  · intro hpos hg
    rw [forwardSpeedOf]
    simp [hpos, hg]
    ring
  · rw [forwardSpeedOf, forwardSpeedOf]
    simp only
    split_ifs <;> first | tauto | ring1
  · rw [forwardSpeedOf, forwardSpeedOf]
    simp only
    split_ifs <;> first | tauto | ring1
  · rw [strafeSpeedOf, strafeSpeedOf]
    simp only
    split_ifs <;> first | tauto | ring1
  · rw [strafeSpeedOf, strafeSpeedOf]
    simp only
    split_ifs <;> first | tauto | ring1

/-- Witness for C8's theorem: two hands showing `dual_open` with the forward
key held give forward speed 8 + 12 = 20. -/
theorem hybridController_speed_terms_witness :
    forwardSpeedOf ⟨0, 0, Gesture.dual_open, 2, 1 / 2, 1 / 2, true, false, false, false, 1 / 60⟩
      = 20 := by
  have h := (hybridController_speed_terms
    ⟨0, 0, Gesture.dual_open, 2, 1 / 2, 1 / 2, true, false, false, false, 1 / 60⟩).2.1
    (by norm_num) rfl
  rw [h]
  norm_num

/-- The gesture type of the first App variant (`src/unnamed/part_000` line 11):
`'none' | 'fist' | 'open'`. -/
inductive AppGesture where
  | none
  | fist
  | openHand
deriving DecidableEq

/-- The wind level sent to the audio engine by the gesture-to-audio effect
(`src/unnamed/part_000` lines 38-44): while `fist` is held, intensity > 0.6
gives level 3, else > 0.3 gives 2, else 1; any other gesture gives level 0. -/
def windLevel (g : AppGesture) (intensity : ℚ) : ℕ :=
  if g = AppGesture.fist then
    (if 6 / 10 < intensity then 3 else if 3 / 10 < intensity then 2 else 1)
  else 0

/-- Modelled from the spec: the `setWindIntensity` method itself is not under
`src/` (only its caller in `src/unnamed/part_000` is); the spec's audio
interface says it accepts a discrete level 0-3. -/
def setWindIntensityAccepts (level : ℕ) : Prop := level ≤ 3

/-- Claim C9: the wind level is always in the accepted range 0-3, and it is
exactly the fixed-threshold quantization of the hold intensity while `fist` is
held (`> 0.6 → 3`, `> 0.3 → 2`, else `1`), and 0 for any other gesture. -/
theorem windIntensity_quantization (g : AppGesture) (intensity : ℚ) :
    setWindIntensityAccepts (windLevel g intensity) ∧
    (g = AppGesture.fist →
       (6 / 10 < intensity → windLevel g intensity = 3) ∧
       (intensity ≤ 6 / 10 → 3 / 10 < intensity → windLevel g intensity = 2) ∧
       (intensity ≤ 3 / 10 → windLevel g intensity = 1)) ∧
    (g ≠ AppGesture.fist → windLevel g intensity = 0) := by
  refine ⟨?_, ?_, ?_⟩
  · rw [setWindIntensityAccepts, windLevel]
    split_ifs <;> omega
  · intro hg
    refine ⟨fun h1 => ?_, fun h1 h2 => ?_, fun h1 => ?_⟩ <;>
      · rw [windLevel]
        split_ifs <;> first | rfl | tauto | linarith
  · intro hg
    rw [windLevel, if_neg hg]

/-- Witness for C9's theorem: a fist held at intensity 0.7 gives wind level 3. -/
theorem windIntensity_quantization_witness : windLevel AppGesture.fist (7 / 10) = 3 :=
  ((windIntensity_quantization AppGesture.fist (7 / 10)).2.1 rfl).1 (by norm_num)

/-- One-shot audio events emitted by the `AudioManager` trigger methods
(`src/components/AudioManager.ts`, second variant): melodic-sequencer notes,
positioned bird calls, growth pulses and leaf hits. -/
inductive AudioEvent where
  | note
  | bird (x y z : ℚ)
  | growthPulse
  | leafHit
deriving DecidableEq

/-- Abstracted state of the `AudioManager` class (`src/components/AudioManager.ts`,
second variant): `hasCtx` is whether `this.ctx` (and with it `masterGain`,
which is created in the same `init` call) is non-null; `reverbGainValue` is the
reverb node's gain target when the node exists; `events` collects the emitted
one-shot sounds. -/
structure AudioManagerState where
  hasCtx : Bool
  currentSeason : Season
  isPlaying : Bool
  reverbGainValue : Option ℚ
  events : List AudioEvent
deriving DecidableEq

/-- The constructor leaves everything null/default: `ctx = null`,
`currentSeason = 'summer'`, `isPlaying = false`. -/
def mkAudioManager : AudioManagerState :=
  ⟨false, Season.summer, false, none, []⟩

namespace AudioManager

/-- `init()` (`AudioManager.ts` lines 244-254): returns at once when a context
already exists; otherwise creates the context and master gain, sets up reverb
(gain 0.2) and starts the melody loop (which schedules its first note). -/
def init (s : AudioManagerState) : AudioManagerState :=
  if s.hasCtx then s
  else { s with hasCtx := true, reverbGainValue := some (2 / 10), isPlaying := true,
                events := s.events ++ [AudioEvent.note] }

/-- `setSeason` (`AudioManager.ts` lines 418-441): guarded by `if (!this.ctx)
return`; otherwise records the season and retargets the reverb gain (0.2 / 0.1
/ 0.2 / 0.5) when the reverb node exists. -/
def setSeason (s : AudioManagerState) (season : Season) : AudioManagerState :=
  if s.hasCtx then
    let reverbAmt : ℚ :=
      match season with
      | .spring => 2 / 10
      | .summer => 1 / 10
      | .autumn => 2 / 10
      | .winter => 5 / 10
    { s with currentSeason := season,
             reverbGainValue := s.reverbGainValue.map (fun _ => reverbAmt) }
  else s

/-- `playBirdSound(x, y, z)` (`AudioManager.ts` lines 368-396): guarded by
`if (!this.ctx || !this.masterGain) return`; otherwise emits an HRTF-panned
chirp at the given position. -/
def playBirdSound (s : AudioManagerState) (x y z : ℚ) : AudioManagerState :=
  if s.hasCtx then { s with events := s.events ++ [AudioEvent.bird x y z] } else s

/-- `playGrowthPulse()` (`AudioManager.ts` lines 348-366): guarded the same
way; otherwise emits a rising pulse. -/
def playGrowthPulse (s : AudioManagerState) : AudioManagerState :=
  if s.hasCtx then { s with events := s.events ++ [AudioEvent.growthPulse] } else s

/-- `playLeafHit()` (`AudioManager.ts` lines 398-415): guarded the same way;
otherwise emits a short noise burst. -/
def playLeafHit (s : AudioManagerState) : AudioManagerState :=
  if s.hasCtx then { s with events := s.events ++ [AudioEvent.leafHit] } else s

end AudioManager

/-- Claim C10: before `init()` (no audio context) every public operation is a
no-op leaving the state unchanged; a fresh `AudioManager` has no context; and
`init` is idempotent — a second call changes nothing. -/
theorem audioManager_preInit_noop :
    (∀ (s : AudioManagerState) (season : Season) (x y z : ℚ), s.hasCtx = false →
       AudioManager.setSeason s season = s ∧
       AudioManager.playBirdSound s x y z = s ∧
       AudioManager.playGrowthPulse s = s ∧
       AudioManager.playLeafHit s = s) ∧
    mkAudioManager.hasCtx = false ∧
    (∀ s : AudioManagerState, AudioManager.init (AudioManager.init s) = AudioManager.init s) := by
  refine ⟨?_, rfl, ?_⟩
  · intro s season x y z h0
    simp [AudioManager.setSeason, AudioManager.playBirdSound, AudioManager.playGrowthPulse,
      AudioManager.playLeafHit, h0]
  · intro s
    unfold AudioManager.init
    split_ifs <;> first | rfl | simp_all

/-- Witness for C10's theorem: on a freshly constructed manager every trigger
is a no-op. -/
theorem audioManager_preInit_noop_witness :
    AudioManager.setSeason mkAudioManager Season.winter = mkAudioManager ∧
    AudioManager.playBirdSound mkAudioManager 1 2 3 = mkAudioManager ∧
    AudioManager.playGrowthPulse mkAudioManager = mkAudioManager ∧
    AudioManager.playLeafHit mkAudioManager = mkAudioManager :=
  audioManager_preInit_noop.1 mkAudioManager Season.winter 1 2 3 rfl
